import Mathlib

/-
Shallow embedding of the speaker-diarization core of the teams-transcription-bot
repository.

Primary source: src/src/transcription/teams_multilingual_transcriber.py
(class TeamsMultilingualTranscriber).  The diarization logic is repeated almost
identically in working_transcriber.py, multilingual_transcriber.py,
transcript_to_file.py and final_transcriber_test.py; the WorkingTranscriber
variant (which has the public clear_transcript method and passes offset and
duration through raw) is embedded as well.

Modelling conventions:
  - Timestamps are rationals (seconds).  The Python code reads the clock once
    per recognized callback (current_time = datetime.now(UTC), resp.
    time.time()); that clock reading is passed to the embedded callback as the
    explicit argument called now.
  - The Azure SDK event evt.result is embedded as RecognitionEvent carrying
    exactly the fields the code reads: reason, text, the auto-detect language
    property, and the duration and offset tick counts (100 ns units,
    non-negative integers in the SDK).
  - Python str.strip() is modelled by pyStrip; the falsy test "if text:" on a
    string is the test against the empty string.
  - External effects (the SDK recognizer object, audio recording, file IO,
    printing, async callbacks) do not touch the diarization state and are not
    modelled; the recognizer attribute is kept as a Bool recording whether a
    recognizer object is attached, because stop_transcription tests it.
-/

namespace TeamsTranscription

/-- Model of Python str.strip(): drop whitespace characters from both ends. -/
def pyStrip (s : String) : String :=
  ⟨List.reverse (List.dropWhile Char.isWhitespace
      (List.reverse (List.dropWhile Char.isWhitespace s.data)))⟩

/-- Result reason of an SDK recognition event; the code only distinguishes
RecognizedSpeech from everything else. -/
inductive ResultReason where
  | recognizedSpeech
  | other
deriving DecidableEq

/-- Fields of evt.result that the recognized callback reads.  duration and
offset are the SDK tick counts (100 ns units); lang is the
AutoDetectSourceLanguageResult property, none when absent. -/
structure RecognitionEvent where
  reason : ResultReason
  text : String
  lang : Option String
  duration : Nat
  offset : Nat
deriving DecidableEq

/-- Stream-relative instant (in seconds) at which the utterance carried by the
event was finalized, derived from the only timestamps the event itself carries:
offset plus duration, in 100 ns ticks. -/
def RecognitionEvent.eventTime (e : RecognitionEvent) : ℚ :=
  ((e.offset : ℚ) + (e.duration : ℚ)) / 10000000

/-- One entry of transcript_segments, as built in _on_recognized of
TeamsMultilingualTranscriber.  start_time is kept as the numeric clock reading
(the code stores its isoformat rendering). -/
structure TranscriptSegment where
  segment_id : Nat
  speaker_id : String
  text : String
  detected_language : String
  start_time : ℚ
  confidence : ℚ
  duration_ms : Nat
  offset_ms : Nat
deriving DecidableEq

/-- Mutable attributes of TeamsMultilingualTranscriber that the lifecycle
methods read or write. -/
structure Transcriber where
  language : String
  is_transcribing : Bool
  recognizer : Bool
  segment_counter : Nat
  speaker_counter : Nat
  last_speech_time : Option ℚ
  session_id : String
  session_start : ℚ
  transcript_segments : List TranscriptSegment
deriving DecidableEq

/-- State established by TeamsMultilingualTranscriber.__init__. -/
def initTranscriber (language session_id : String) (session_start : ℚ) : Transcriber :=
  { language := language
    is_transcribing := false
    recognizer := false
    segment_counter := 0
    speaker_counter := 0
    last_speech_time := none
    session_id := session_id
    session_start := session_start
    transcript_segments := [] }

/-- start_transcription: early return when already transcribing; otherwise the
SDK recognizer is created and is_transcribing is set. -/
def start_transcription (s : Transcriber) : Transcriber :=
  if s.is_transcribing then s
  else { s with recognizer := true, is_transcribing := true }

/-- Session summary dictionary built by stop_transcription. -/
structure SessionSummary where
  session_id : String
  start_time : ℚ
  end_time : ℚ
  language_setting : String
  total_segments : Nat
  total_speakers : Nat
  languages_detected : List String
  segments : List TranscriptSegment
deriving DecidableEq

/-- stop_transcription: returns the empty dictionary (modelled as none) when
not transcribing or no recognizer is attached; otherwise clears
is_transcribing and returns the summary.  The Python set of detected languages
is modelled as the deduplicated list of the per-segment values. -/
def stop_transcription (s : Transcriber) (now : ℚ) : Transcriber × Option SessionSummary :=
  if !s.is_transcribing || !s.recognizer then (s, none)
  else
    ({ s with is_transcribing := false },
     some
       { session_id := s.session_id
         start_time := s.session_start
         end_time := now
         language_setting := s.language
         total_segments := s.transcript_segments.length
         total_speakers := s.speaker_counter
         languages_detected :=
           (s.transcript_segments.map TranscriptSegment.detected_language).dedup
         segments := s.transcript_segments })

/-- Language detection in _on_recognized: the property value when present and
truthy (a non-empty string), otherwise the string unknown. -/
def detectedLang (e : RecognitionEvent) : String :=
  match e.lang with
  | some l => if l = "" then "unknown" else l
  | none => "unknown"

/-- Gap test of _on_recognized: new speaker when last_speech_time is None or
the clock reading minus last_speech_time exceeds 3 seconds. -/
def isNewSpeaker (last : Option ℚ) (now : ℚ) : Bool :=
  match last with
  | none => true
  | some t => decide (now - t > 3)

/-- Synthetic speaker label, f-string Speaker_{n} in the source. -/
def speakerName (n : Nat) : String :=
  "Speaker_" ++ toString n

/-- Value of speaker_counter after the conditional increment in
_on_recognized. -/
def newSpeakerCounter (s : Transcriber) (now : ℚ) : Nat :=
  if isNewSpeaker s.last_speech_time now then s.speaker_counter + 1
  else s.speaker_counter

/-- Segment dictionary built by _on_recognized for an accepted event:
segment_id is the incremented segment_counter, speaker_id the synthetic label,
confidence the fixed placeholder 0.95, and duration_ms and offset_ms the tick
counts integer-divided by 10000. -/
def stepSegment (s : Transcriber) (now : ℚ) (e : RecognitionEvent) : TranscriptSegment :=
  { segment_id := s.segment_counter + 1
    speaker_id := speakerName (newSpeakerCounter s now)
    text := pyStrip e.text
    detected_language := detectedLang e
    start_time := now
    confidence := (95 : ℚ) / 100
    duration_ms := e.duration / 10000
    offset_ms := e.offset / 10000 }

/-- Attribute updates performed by _on_recognized for an accepted event:
speaker_counter and segment_counter advance, last_speech_time becomes the
clock reading, and the segment is appended. -/
def stepState (s : Transcriber) (now : ℚ) (e : RecognitionEvent) : Transcriber :=
  { s with
    speaker_counter := newSpeakerCounter s now
    segment_counter := s.segment_counter + 1
    last_speech_time := some now
    transcript_segments := s.transcript_segments ++ [stepSegment s now e] }

/-- Callback _on_recognized of TeamsMultilingualTranscriber.  Note that the
code never consults is_transcribing here: the only guards are the result
reason and the stripped text being non-empty. -/
def onRecognized (s : Transcriber) (now : ℚ) (e : RecognitionEvent) :
    Transcriber × Option TranscriptSegment :=
  if e.reason = ResultReason.recognizedSpeech then
    if pyStrip e.text = "" then (s, none)
    else (stepState s now e, some (stepSegment s now e))
  else (s, none)

/-- An event that passes both guards of _on_recognized. -/
def Accepted (e : RecognitionEvent) : Prop :=
  e.reason = ResultReason.recognizedSpeech ∧ pyStrip e.text ≠ ""

instance (e : RecognitionEvent) : Decidable (Accepted e) := by
  unfold Accepted
  infer_instance

/-- Fold a list of clock-stamped events through the recognized callback. -/
def runEvents (s : Transcriber) (evs : List (ℚ × RecognitionEvent)) : Transcriber :=
  match evs with
  | [] => s
  | p :: rest => runEvents (onRecognized s p.1 p.2).1 rest

/-- Segments emitted, in callback order, while folding a list of clock-stamped
events through the recognized callback. -/
def runOutputs (s : Transcriber) (evs : List (ℚ × RecognitionEvent)) : List TranscriptSegment :=
  match evs with
  | [] => []
  | p :: rest =>
    (onRecognized s p.1 p.2).2.toList ++ runOutputs (onRecognized s p.1 p.2).1 rest

/-- Entry dictionary built by _on_recognized of WorkingTranscriber
(working_transcriber.py): offset and duration are passed through raw.  The
code reads the clock twice (time.time() for the gap and datetime.utcnow() for
the stored timestamp); both readings are modelled by the one argument now. -/
structure WorkingEntry where
  speaker_id : String
  text : String
  timestamp : ℚ
  confidence : ℚ
  offset : Nat
  duration : Nat
deriving DecidableEq

/-- Mutable attributes of WorkingTranscriber that its callback and
clear_transcript read or write. -/
structure WorkingTranscriber where
  is_transcribing : Bool
  recognizer : Bool
  transcript_entries : List WorkingEntry
  speaker_counter : Nat
  last_speech_time : Option ℚ
deriving DecidableEq

/-- State established by WorkingTranscriber.__init__. -/
def initWorking : WorkingTranscriber :=
  { is_transcribing := false
    recognizer := false
    transcript_entries := []
    speaker_counter := 0
    last_speech_time := none }

/-- Value of speaker_counter after the conditional increment in the
WorkingTranscriber callback. -/
def workingNewCounter (w : WorkingTranscriber) (now : ℚ) : Nat :=
  if isNewSpeaker w.last_speech_time now then w.speaker_counter + 1
  else w.speaker_counter

/-- Entry appended by the WorkingTranscriber callback for an accepted event. -/
def workingEntry (w : WorkingTranscriber) (now : ℚ) (e : RecognitionEvent) : WorkingEntry :=
  { speaker_id := speakerName (workingNewCounter w now)
    text := pyStrip e.text
    timestamp := now
    confidence := (95 : ℚ) / 100
    offset := e.offset
    duration := e.duration }

/-- Callback _on_recognized of WorkingTranscriber: guarded by the result
reason and the stripped text, never by is_transcribing. -/
def workingOnRecognized (w : WorkingTranscriber) (now : ℚ) (e : RecognitionEvent) :
    WorkingTranscriber :=
  if e.reason = ResultReason.recognizedSpeech ∧ pyStrip e.text ≠ "" then
    { w with
      speaker_counter := workingNewCounter w now
      last_speech_time := some now
      transcript_entries := w.transcript_entries ++ [workingEntry w now e] }
  else w

/-- clear_transcript of WorkingTranscriber: empties the entries and resets
speaker_counter to zero. -/
def clear_transcript (w : WorkingTranscriber) : WorkingTranscriber :=
  { w with transcript_entries := [], speaker_counter := 0 }

/-- States of a TeamsMultilingualTranscriber produced by its lifecycle
operations: the constructor, start, the recognized callback, and stop. -/
inductive Reachable : Transcriber → Prop where
  | init (language session_id : String) (t0 : ℚ) :
      Reachable (initTranscriber language session_id t0)
  | start {s : Transcriber} : Reachable s → Reachable (start_transcription s)
  | ingest {s : Transcriber} (now : ℚ) (e : RecognitionEvent) :
      Reachable s → Reachable (onRecognized s now e).1
  | stop {s : Transcriber} (now : ℚ) :
      Reachable s → Reachable (stop_transcription s now).1

/-- Concrete accepted event used in witnesses. -/
def exEventA : RecognitionEvent :=
  { reason := ResultReason.recognizedSpeech
    text := "Hello"
    lang := some "en-US"
    duration := 20000
    offset := 30000 }

/-- Second concrete accepted event used in witnesses. -/
def exEventB : RecognitionEvent :=
  { reason := ResultReason.recognizedSpeech
    text := "New speaker now"
    lang := some "es-ES"
    duration := 15000000
    offset := 50000000 }

/-- Concrete whitespace-only event used in witnesses. -/
def exEmptyEvent : RecognitionEvent :=
  { reason := ResultReason.recognizedSpeech
    text := "   "
    lang := none
    duration := 0
    offset := 0 }

/-- Concrete freshly started transcriber used in witnesses. -/
def exStart : Transcriber :=
  start_transcription (initTranscriber "auto" "session_1" 0)

/-- Concrete transcriber that ingested one event and was then stopped. -/
def exAfterStop : Transcriber :=
  (stop_transcription (onRecognized exStart 0 exEventA).1 50).1

/-- Concrete WorkingTranscriber that ingested one accepted event. -/
def exWorking : WorkingTranscriber :=
  workingOnRecognized initWorking 0 exEventA

/-- Basic lemma: an accepted event makes the callback perform the step. -/
theorem onRecognized_of_accepted (s : Transcriber) (now : ℚ) (e : RecognitionEvent)
    (h : Accepted e) :
    onRecognized s now e = (stepState s now e, some (stepSegment s now e)) := by
  obtain ⟨hr, ht⟩ := h
  simp [onRecognized, hr, ht]

/-- Basic lemma: a rejected event leaves the state untouched and yields no
segment. -/
theorem onRecognized_of_rejected (s : Transcriber) (now : ℚ) (e : RecognitionEvent)
    (h : ¬ Accepted e) :
    onRecognized s now e = (s, none) := by
  unfold onRecognized
  by_cases hr : e.reason = ResultReason.recognizedSpeech
  · have ht : pyStrip e.text = "" := by
      by_contra hne
      exact h ⟨hr, hne⟩
    simp [hr, ht]
  · simp [hr]

/-- The callback appends exactly the segments it returns. -/
theorem onRecognized_segments (s : Transcriber) (now : ℚ) (e : RecognitionEvent) :
    (onRecognized s now e).1.transcript_segments
      = s.transcript_segments ++ (onRecognized s now e).2.toList := by
  by_cases h : Accepted e
  · rw [onRecognized_of_accepted s now e h]
    simp [stepState]
  · rw [onRecognized_of_rejected s now e h]
    simp

/-- The callback never touches is_transcribing or recognizer. -/
theorem onRecognized_flags (s : Transcriber) (now : ℚ) (e : RecognitionEvent) :
    (onRecognized s now e).1.is_transcribing = s.is_transcribing ∧
    (onRecognized s now e).1.recognizer = s.recognizer := by
  by_cases h : Accepted e
  · rw [onRecognized_of_accepted s now e h]
    simp [stepState]
  · rw [onRecognized_of_rejected s now e h]
    simp

/-- The first component of stop_transcription keeps every attribute except
is_transcribing. -/
theorem stop_fst_fields (s : Transcriber) (now : ℚ) :
    (stop_transcription s now).1.speaker_counter = s.speaker_counter ∧
    (stop_transcription s now).1.transcript_segments = s.transcript_segments ∧
    (stop_transcription s now).1.last_speech_time = s.last_speech_time := by
  unfold stop_transcription
  split <;> simp

/-- start_transcription keeps every attribute except the two flags. -/
theorem start_fields (s : Transcriber) :
    (start_transcription s).speaker_counter = s.speaker_counter ∧
    (start_transcription s).transcript_segments = s.transcript_segments ∧
    (start_transcription s).last_speech_time = s.last_speech_time := by
  unfold start_transcription
  split <;> simp

/-- Folding events never changes the two flags. -/
theorem runEvents_flags (evs : List (ℚ × RecognitionEvent)) :
    ∀ s : Transcriber,
      (runEvents s evs).is_transcribing = s.is_transcribing ∧
      (runEvents s evs).recognizer = s.recognizer := by
  induction evs with
  | nil => intro s; simp [runEvents]
  | cons p rest ih =>
      intro s
      rw [runEvents]
      obtain ⟨h1, h2⟩ := ih (onRecognized s p.1 p.2).1
      obtain ⟨g1, g2⟩ := onRecognized_flags s p.1 p.2
      exact ⟨h1.trans g1, h2.trans g2⟩

/-- Folding events appends exactly the emitted segments, in emission order. -/
theorem runEvents_segments (evs : List (ℚ × RecognitionEvent)) :
    ∀ s : Transcriber,
      (runEvents s evs).transcript_segments
        = s.transcript_segments ++ runOutputs s evs := by
  induction evs with
  | nil => intro s; simp [runEvents, runOutputs]
  | cons p rest ih =>
      intro s
      rw [runEvents, runOutputs, ih (onRecognized s p.1 p.2).1,
        onRecognized_segments s p.1 p.2]
      simp

/-- When every event is accepted, segment_counter advances by the number of
events and the emitted segment ids are consecutive starting right after the
previous counter value. -/
theorem runOutputs_ids (evs : List (ℚ × RecognitionEvent)) :
    ∀ s : Transcriber, (∀ p ∈ evs, Accepted p.2) →
      (runEvents s evs).segment_counter = s.segment_counter + evs.length ∧
      (runOutputs s evs).map TranscriptSegment.segment_id
        = List.range' (s.segment_counter + 1) evs.length := by
  induction evs with
  | nil => intro s _; simp [runEvents, runOutputs]
  | cons p rest ih =>
      intro s h
      have hp : Accepted p.2 := h p (by simp)
      have hrest : ∀ q ∈ rest, Accepted q.2 := fun q hq => h q (by simp [hq])
      have he := onRecognized_of_accepted s p.1 p.2 hp
      have h1 : (onRecognized s p.1 p.2).1 = stepState s p.1 p.2 := by rw [he]
      have h2 : (onRecognized s p.1 p.2).2 = some (stepSegment s p.1 p.2) := by rw [he]
      obtain ⟨ihc, iho⟩ := ih (stepState s p.1 p.2) hrest
      constructor
      · rw [runEvents, h1, ihc]
        simp [stepState]
        omega
      · rw [runOutputs, h1, h2]
        simp only [Option.toList_some, List.singleton_append, List.map_cons,
          List.length_cons]
        rw [iho, List.range'_succ]
        simp [stepState, stepSegment]

/-- Basic lemma: the WorkingTranscriber callback on an accepted event. -/
theorem workingOnRecognized_of_accepted (w : WorkingTranscriber) (now : ℚ)
    (e : RecognitionEvent) (h : Accepted e) :
    workingOnRecognized w now e =
      { w with
        speaker_counter := workingNewCounter w now
        last_speech_time := some now
        transcript_entries := w.transcript_entries ++ [workingEntry w now e] } := by
  obtain ⟨hr, ht⟩ := h
  simp [workingOnRecognized, hr, ht]

/-- Basic lemma: the WorkingTranscriber callback on a rejected event. -/
theorem workingOnRecognized_of_rejected (w : WorkingTranscriber) (now : ℚ)
    (e : RecognitionEvent) (h : ¬ Accepted e) :
    workingOnRecognized w now e = w := by
  unfold workingOnRecognized
  rw [if_neg]
  exact fun hc => h ⟨hc.1, hc.2⟩

/-- Deduplicating a list does not change the set of its members. -/
theorem dedup_toFinset (l : List String) : l.dedup.toFinset = l.toFinset := by
  ext a
  simp

/-- A failed gap test means there was a previous speech time. -/
theorem isNewSpeaker_false_isSome {last : Option ℚ} {now : ℚ}
    (h : isNewSpeaker last now = false) : last.isSome = true := by
  cases last with
  | none => simp [isNewSpeaker] at h
  | some t => rfl

/-- Unfolding lemma for the gap test with a previous speech time. -/
theorem isNewSpeaker_some (t now : ℚ) :
    isNewSpeaker (some t) now = decide (now - t > 3) := rfl

/-- Unfolding lemma for the gap test without a previous speech time. -/
theorem isNewSpeaker_none (now : ℚ) : isNewSpeaker none now = true := rfl

/-- The conditional increment adds at most one. -/
theorem newSpeakerCounter_le (s : Transcriber) (now : ℚ) :
    s.speaker_counter ≤ newSpeakerCounter s now ∧
    newSpeakerCounter s now ≤ s.speaker_counter + 1 := by
  unfold newSpeakerCounter
  split <;> omega

/-- stop_transcription on a running session with a recognizer attached. -/
theorem stop_of_running (s : Transcriber) (now : ℚ)
    (h1 : s.is_transcribing = true) (h2 : s.recognizer = true) :
    stop_transcription s now =
      ({ s with is_transcribing := false },
       some
         { session_id := s.session_id
           start_time := s.session_start
           end_time := now
           language_setting := s.language
           total_segments := s.transcript_segments.length
           total_speakers := s.speaker_counter
           languages_detected :=
             (s.transcript_segments.map TranscriptSegment.detected_language).dedup
           segments := s.transcript_segments }) := by
  simp [stop_transcription, h1, h2]

/-- stop_transcription on a non-running session returns the empty summary and
changes nothing. -/
theorem stop_of_not_running (s : Transcriber) (now : ℚ)
    (h : s.is_transcribing = false) :
    stop_transcription s now = (s, none) := by
  simp [stop_transcription, h]

/-- Strengthened reachability invariant for the speaker counter. -/
theorem reachable_invariant {s : Transcriber} (h : Reachable s) :
    s.speaker_counter ≤ s.transcript_segments.length ∧
    (s.last_speech_time.isSome = true → 1 ≤ s.speaker_counter) ∧
    (s.transcript_segments ≠ [] → s.last_speech_time.isSome = true) := by
  induction h with
  | init language session_id t0 => simp [initTranscriber]
  | @start s h ih =>
      obtain ⟨f1, f2, f3⟩ := start_fields s
      rw [f1, f2, f3]
      exact ih
  | @ingest s now e h ih =>
      by_cases ha : Accepted e
      · rw [onRecognized_of_accepted s now e ha]
        obtain ⟨ih1, ih2, ih3⟩ := ih
        obtain ⟨hn1, hn2⟩ := newSpeakerCounter_le s now
        refine ⟨?_, ?_, ?_⟩
        · simp only [stepState, List.length_append, List.length_singleton]
          omega
        · intro _
          simp only [stepState]
          unfold newSpeakerCounter
          split
          · omega
          · next hfalse =>
              exact ih2 (isNewSpeaker_false_isSome (by simpa using hfalse))
        · intro _
          rfl
      · rw [onRecognized_of_rejected s now e ha]
        exact ih
  | @stop s now h ih =>
      obtain ⟨f1, f2, f3⟩ := stop_fst_fields s now
      rw [f1, f2, f3]
      exact ih

/-- C1 (P2, gap-triggered speaker increment): for two consecutively accepted
events, with per-event clock readings t1 and t2 (the code reads the clock once
per recognized callback, which is the only per-event timestamp entering the
gap test), the second event gets a fresh speaker (counter incremented by one,
synthetic index one higher than the first) exactly when t2 - t1 > 3 seconds;
when t2 - t1 <= 3 the second event reuses the same speaker_id. -/
theorem gap_speaker_rule (s : Transcriber) (t1 t2 : ℚ) (e1 e2 : RecognitionEvent)
    (h1 : Accepted e1) (h2 : Accepted e2) :
    (onRecognized s t1 e1).2.map TranscriptSegment.speaker_id
        = some (speakerName (onRecognized s t1 e1).1.speaker_counter) ∧
    (t2 - t1 > 3 →
      (onRecognized (onRecognized s t1 e1).1 t2 e2).1.speaker_counter
          = (onRecognized s t1 e1).1.speaker_counter + 1 ∧
      (onRecognized (onRecognized s t1 e1).1 t2 e2).2.map TranscriptSegment.speaker_id
          = some (speakerName ((onRecognized s t1 e1).1.speaker_counter + 1))) ∧
    (t2 - t1 ≤ 3 →
      (onRecognized (onRecognized s t1 e1).1 t2 e2).1.speaker_counter
          = (onRecognized s t1 e1).1.speaker_counter ∧
      (onRecognized (onRecognized s t1 e1).1 t2 e2).2.map TranscriptSegment.speaker_id
          = (onRecognized s t1 e1).2.map TranscriptSegment.speaker_id) := by
  have e1eq := onRecognized_of_accepted s t1 e1 h1
  have e2eq := onRecognized_of_accepted (stepState s t1 e1) t2 e2 h2
  simp only [e1eq, e2eq]
  refine ⟨by simp [stepSegment, stepState], ?_, ?_⟩
  · intro hgt
    have hb : isNewSpeaker (some t1) t2 = true := by
      rw [isNewSpeaker_some]
      exact decide_eq_true hgt
    constructor <;> simp [stepState, stepSegment, newSpeakerCounter, hb]
  · intro hle
    have hb : isNewSpeaker (some t1) t2 = false := by
      rw [isNewSpeaker_some]
      exact decide_eq_false (not_lt.mpr hle)
    constructor <;> simp [stepState, stepSegment, newSpeakerCounter, hb]

/-- Witness for C1: from a fresh session, events at clock readings 0 and 10
(gap 10 > 3) give the second event a speaker counter one higher. -/
theorem gap_speaker_rule_witness :
    (10 : ℚ) - 0 > 3 ∧
    (onRecognized (onRecognized exStart 0 exEventA).1 10 exEventB).1.speaker_counter
        = (onRecognized exStart 0 exEventA).1.speaker_counter + 1 ∧
    (onRecognized (onRecognized exStart 0 exEventA).1 10 exEventB).2.map
        TranscriptSegment.speaker_id
        = some (speakerName ((onRecognized exStart 0 exEventA).1.speaker_counter + 1)) := by
  have h := (gap_speaker_rule exStart 0 10 exEventA exEventB (by decide) (by decide)).2.1
      (by norm_num)
  exact ⟨by norm_num, h.1, h.2⟩

/-- C2 (amended): after every accepted event, last_speech_time equals the
wall-clock reading the callback takes when it processes the event. -/
theorem last_speech_time_is_clock (s : Transcriber) (now : ℚ) (e : RecognitionEvent)
    (h : Accepted e) :
    (onRecognized s now e).1.last_speech_time = some now := by
  rw [onRecognized_of_accepted s now e h]
  simp [stepState]

/-- Witness for the amended C2. -/
theorem last_speech_time_is_clock_witness :
    Accepted exEventA ∧
    (onRecognized exStart 7 exEventA).1.last_speech_time = some 7 :=
  ⟨by decide, last_speech_time_is_clock exStart 7 exEventA (by decide)⟩

/-- C2 (counterexample): the callback stores the wall-clock reading, not the
timestamp the event itself carries.  At clock reading 100 the stored
last_speech_time is 100, while the stream instant of the event (offset plus
duration ticks) is 1/200 of a second. -/
theorem last_speech_time_cex :
    Accepted exEventA ∧
    (onRecognized exStart 100 exEventA).1.last_speech_time = some 100 ∧
    exEventA.eventTime = 1 / 200 ∧
    (onRecognized exStart 100 exEventA).1.last_speech_time ≠ some exEventA.eventTime := by
  have heq := onRecognized_of_accepted exStart 100 exEventA (by decide)
  refine ⟨by decide, ?_, ?_, ?_⟩
  · rw [heq]
    simp [stepState]
  · unfold RecognitionEvent.eventTime exEventA
    norm_num
  · rw [heq]
    simp only [stepState, RecognitionEvent.eventTime, exEventA, Option.some_inj, ne_eq]
    norm_num

/-- C3 (P1, monotonic segment IDs): from a freshly started session, ingesting
N accepted events emits segments whose segment_id values are exactly
1, ..., N in call order, and the stored segment list equals the emitted
segments in emission order. -/
theorem segment_ids_monotone (language session_id : String) (t0 : ℚ)
    (evs : List (ℚ × RecognitionEvent)) (h : ∀ p ∈ evs, Accepted p.2) :
    (runEvents (start_transcription (initTranscriber language session_id t0))
        evs).transcript_segments
      = runOutputs (start_transcription (initTranscriber language session_id t0)) evs ∧
    (runOutputs (start_transcription (initTranscriber language session_id t0)) evs).map
        TranscriptSegment.segment_id
      = List.range' 1 evs.length := by
  constructor
  · rw [runEvents_segments]
    simp [start_transcription, initTranscriber]
  · have hids := (runOutputs_ids evs
      (start_transcription (initTranscriber language session_id t0)) h).2
    simpa [start_transcription, initTranscriber] using hids

/-- Witness for C3: two accepted events give segment ids 1 and 2. -/
theorem segment_ids_monotone_witness :
    (runOutputs exStart [(0, exEventA), (1, exEventB)]).map TranscriptSegment.segment_id
      = [1, 2] := by
  have h := (segment_ids_monotone "auto" "session_1" 0 [(0, exEventA), (1, exEventB)]
      (by decide)).2
  unfold exStart
  rw [h]
  decide

/-- C4 (P3, empty text is a no-op): ingesting an event whose text strips to
the empty string returns no segment and leaves the whole transcriber state,
including segment counter, speaker counter and last_speech_time, unchanged. -/
theorem empty_text_is_noop (s : Transcriber) (now : ℚ) (e : RecognitionEvent)
    (h : pyStrip e.text = "") :
    onRecognized s now e = (s, none) := by
  unfold onRecognized
  by_cases hr : e.reason = ResultReason.recognizedSpeech <;> simp [hr, h]

/-- Witness for C4: a whitespace-only event is a no-op. -/
theorem empty_text_is_noop_witness :
    pyStrip exEmptyEvent.text = "" ∧
    onRecognized exStart 5 exEmptyEvent = (exStart, none) :=
  ⟨by decide, empty_text_is_noop exStart 5 exEmptyEvent (by decide)⟩

/-- C5: stopping a running session yields a summary whose total_segments is
the number of emitted segments, whose total_speakers is the final
speaker_counter, and whose languages_detected has exactly the distinct
detected_language values of the segments (as a set). -/
theorem stop_summary_rule (language session_id : String) (t0 : ℚ)
    (evs : List (ℚ × RecognitionEvent)) (now : ℚ) :
    ((stop_transcription
        (runEvents (start_transcription (initTranscriber language session_id t0)) evs)
        now).2.map SessionSummary.total_segments)
      = some (runOutputs (start_transcription (initTranscriber language session_id t0))
          evs).length ∧
    ((stop_transcription
        (runEvents (start_transcription (initTranscriber language session_id t0)) evs)
        now).2.map SessionSummary.total_speakers)
      = some (runEvents (start_transcription (initTranscriber language session_id t0))
          evs).speaker_counter ∧
    ((stop_transcription
        (runEvents (start_transcription (initTranscriber language session_id t0)) evs)
        now).2.map (fun sum => sum.languages_detected.toFinset))
      = some ((runEvents (start_transcription (initTranscriber language session_id t0))
          evs).transcript_segments.map TranscriptSegment.detected_language).toFinset := by
  have hflag : (runEvents (start_transcription (initTranscriber language session_id t0))
      evs).is_transcribing = true := by
    rw [(runEvents_flags evs _).1]
    simp [start_transcription, initTranscriber]
  have hrec : (runEvents (start_transcription (initTranscriber language session_id t0))
      evs).recognizer = true := by
    rw [(runEvents_flags evs _).2]
    simp [start_transcription, initTranscriber]
  have hseg := runEvents_segments evs (start_transcription (initTranscriber language session_id t0))
  rw [stop_of_running _ _ hflag hrec]
  refine ⟨?_, ?_, ?_⟩
  · simp only [Option.map_some]
    rw [hseg]
    simp [start_transcription, initTranscriber]
  · simp
  · simp [dedup_toFinset]

/-- C6 (counterexample): after stop_transcription the session is not left
unchanged by further ingestion, and stopping again reports no error.  The
concrete state exAfterStop holds one segment and is stopped; ingesting an
accepted event still appends a second segment, and a second stop returns the
empty summary instead of failing. -/
theorem session_closed_cex :
    exAfterStop.is_transcribing = false ∧
    exAfterStop.transcript_segments.length = 1 ∧
    (onRecognized exAfterStop 60 exEventB).1.transcript_segments.length = 2 ∧
    stop_transcription exAfterStop 70 = (exAfterStop, none) := by
  have h1 : (onRecognized exStart 0 exEventA).1 = stepState exStart 0 exEventA := by
    rw [onRecognized_of_accepted exStart 0 exEventA (by decide)]
  have hfl : (stepState exStart 0 exEventA).is_transcribing = true := by
    simp [stepState, exStart, start_transcription, initTranscriber]
  have hrc : (stepState exStart 0 exEventA).recognizer = true := by
    simp [stepState, exStart, start_transcription, initTranscriber]
  have h2 : exAfterStop = { stepState exStart 0 exEventA with is_transcribing := false } := by
    unfold exAfterStop
    rw [h1, stop_of_running _ _ hfl hrc]
  have ha : exAfterStop.is_transcribing = false := by
    rw [h2]
  have hb : exAfterStop.transcript_segments.length = 1 := by
    rw [h2]
    simp [stepState, exStart, start_transcription, initTranscriber]
  refine ⟨ha, hb, ?_, stop_of_not_running _ _ ha⟩
  rw [onRecognized_of_accepted exAfterStop 60 exEventB (by decide)]
  simp [stepState, hb]

/-- C6 (amended): stop_transcription outside the Running state returns the
empty summary and leaves the state unchanged, raising no NotRunning error;
and the recognized callback performs no session-state check, so an accepted
event ingested after stop is processed normally and appends a segment instead
of failing with SessionClosed. -/
theorem session_closed_amended (s : Transcriber) (tstop tin : ℚ) (e : RecognitionEvent)
    (hstop : s.is_transcribing = false) (he : Accepted e) :
    stop_transcription s tstop = (s, none) ∧
    (onRecognized s tin e).1.transcript_segments.length
        = s.transcript_segments.length + 1 := by
  refine ⟨stop_of_not_running s tstop hstop, ?_⟩
  rw [onRecognized_of_accepted s tin e he]
  simp [stepState]

/-- Witness for the amended C6. -/
theorem session_closed_amended_witness :
    stop_transcription (initTranscriber "auto" "x" 0) 1
        = (initTranscriber "auto" "x" 0, none) ∧
    (onRecognized (initTranscriber "auto" "x" 0) 2 exEventA).1.transcript_segments.length
        = (initTranscriber "auto" "x" 0).transcript_segments.length + 1 :=
  session_closed_amended (initTranscriber "auto" "x" 0) 1 2 exEventA rfl (by decide)

/-- C7 (counterexample): starting an already-started transcriber silently does
nothing: it returns with the state unchanged, and no AlreadyRunning error
exists in the code. -/
theorem already_running_cex :
    exStart.is_transcribing = true ∧ start_transcription exStart = exStart := by
  constructor
  · rfl
  · rfl

/-- C7 (amended): calling start a second time on an already-started session is
a silent no-op that leaves the transcriber unchanged. -/
theorem already_running_noop (s : Transcriber) (h : s.is_transcribing = true) :
    start_transcription s = s := by
  simp [start_transcription, h]

/-- Witness for the amended C7. -/
theorem already_running_noop_witness :
    start_transcription exStart = exStart :=
  already_running_noop exStart rfl

/-- C8 (counterexample): the emitted segment does not carry the raw duration
and offset of the event: for tick values 20000 and 30000 the segment stores
the millisecond conversions 2 and 3. -/
theorem duration_offset_cex :
    exEventA.duration = 20000 ∧
    exEventA.offset = 30000 ∧
    (onRecognized exStart 0 exEventA).2.map TranscriptSegment.duration_ms = some 2 ∧
    (onRecognized exStart 0 exEventA).2.map TranscriptSegment.offset_ms = some 3 ∧
    (onRecognized exStart 0 exEventA).2.map TranscriptSegment.duration_ms
        ≠ some exEventA.duration ∧
    (onRecognized exStart 0 exEventA).2.map TranscriptSegment.offset_ms
        ≠ some exEventA.offset := by
  have heq := onRecognized_of_accepted exStart 0 exEventA (by decide)
  rw [heq]
  refine ⟨rfl, rfl, ?_, ?_, ?_, ?_⟩ <;> simp [stepSegment, exEventA]

/-- C8 (amended): in TeamsMultilingualTranscriber the segment stores the tick
values integer-divided by 10000 (milliseconds), while in WorkingTranscriber
the appended entry passes offset and duration through unchanged. -/
theorem duration_offset_amended (s : Transcriber) (w : WorkingTranscriber)
    (now : ℚ) (e : RecognitionEvent) (h : Accepted e) :
    (onRecognized s now e).2.map TranscriptSegment.duration_ms
        = some (e.duration / 10000) ∧
    (onRecognized s now e).2.map TranscriptSegment.offset_ms
        = some (e.offset / 10000) ∧
    (workingOnRecognized w now e).transcript_entries
        = w.transcript_entries ++ [workingEntry w now e] ∧
    (workingEntry w now e).duration = e.duration ∧
    (workingEntry w now e).offset = e.offset := by
  rw [onRecognized_of_accepted s now e h, workingOnRecognized_of_accepted w now e h]
  exact ⟨by simp [stepSegment], by simp [stepSegment], rfl, rfl, rfl⟩

/-- Witness for the amended C8. -/
theorem duration_offset_amended_witness :
    (onRecognized exStart 0 exEventA).2.map TranscriptSegment.duration_ms
        = some (exEventA.duration / 10000) ∧
    (onRecognized exStart 0 exEventA).2.map TranscriptSegment.offset_ms
        = some (exEventA.offset / 10000) ∧
    (workingOnRecognized initWorking 0 exEventA).transcript_entries
        = initWorking.transcript_entries ++ [workingEntry initWorking 0 exEventA] ∧
    (workingEntry initWorking 0 exEventA).duration = exEventA.duration ∧
    (workingEntry initWorking 0 exEventA).offset = exEventA.offset :=
  duration_offset_amended exStart initWorking 0 exEventA (by decide)

/-- C9 (counterexample): clear_transcript of WorkingTranscriber, a public
operation, resets speaker_counter from 1 back to 0, so the counter is not
monotone over the whole public interface. -/
theorem clear_transcript_cex :
    exWorking.speaker_counter = 1 ∧
    (clear_transcript exWorking).speaker_counter = 0 := by
  have h := workingOnRecognized_of_accepted initWorking 0 exEventA (by decide)
  constructor
  · show (workingOnRecognized initWorking 0 exEventA).speaker_counter = 1
    rw [h]
    simp [workingNewCounter, initWorking, isNewSpeaker]
  · simp [clear_transcript]

/-- C9 (amended): speaker_counter never decreases under start, the recognized
callback, or stop, in either transcriber; but clear_transcript of
WorkingTranscriber resets it to 0. -/
theorem speaker_counter_monotone :
    (∀ (s : Transcriber) (now : ℚ) (e : RecognitionEvent),
        s.speaker_counter ≤ (onRecognized s now e).1.speaker_counter) ∧
    (∀ s : Transcriber, s.speaker_counter ≤ (start_transcription s).speaker_counter) ∧
    (∀ (s : Transcriber) (now : ℚ),
        s.speaker_counter ≤ (stop_transcription s now).1.speaker_counter) ∧
    (∀ (w : WorkingTranscriber) (now : ℚ) (e : RecognitionEvent),
        w.speaker_counter ≤ (workingOnRecognized w now e).speaker_counter) ∧
    (∀ w : WorkingTranscriber, (clear_transcript w).speaker_counter = 0) := by
  refine ⟨?_, ?_, ?_, ?_, ?_⟩
  · intro s now e
    by_cases h : Accepted e
    · rw [onRecognized_of_accepted s now e h]
      have := (newSpeakerCounter_le s now).1
      simpa [stepState] using this
    · rw [onRecognized_of_rejected s now e h]
  · intro s
    rw [(start_fields s).1]
  · intro s now
    rw [(stop_fst_fields s now).1]
  · intro w now e
    by_cases h : Accepted e
    · rw [workingOnRecognized_of_accepted w now e h]
      simp only [workingNewCounter]
      split <;> omega
    · rw [workingOnRecognized_of_rejected w now e h]
  · intro w
    simp [clear_transcript]

/-- C10: in every reachable transcriber state, speaker_counter is bounded by
the number of stored segments, a non-empty segment list forces a positive
speaker_counter (the first accepted event always creates Speaker_1), and any
summary returned by stop satisfies total_speakers less than or equal to
total_segments, with total_segments at least 1 forcing total_speakers at
least 1. -/
theorem speaker_counter_bounds {s : Transcriber} (h : Reachable s) :
    s.speaker_counter ≤ s.transcript_segments.length ∧
    (1 ≤ s.transcript_segments.length → 1 ≤ s.speaker_counter) ∧
    (∀ (now : ℚ) (s2 : Transcriber) (sum : SessionSummary),
        stop_transcription s now = (s2, some sum) →
        sum.total_speakers ≤ sum.total_segments ∧
        (1 ≤ sum.total_segments → 1 ≤ sum.total_speakers)) := by
  obtain ⟨i1, i2, i3⟩ := reachable_invariant h
  have hlen : 1 ≤ s.transcript_segments.length → 1 ≤ s.speaker_counter := by
    intro hl
    exact i2 (i3 (List.length_pos.mp hl))
  refine ⟨i1, hlen, ?_⟩
  intro now s2 sum hstop
  unfold stop_transcription at hstop
  split at hstop
  · simp at hstop
  · obtain ⟨hp1, hp2⟩ := Prod.mk.injEq _ _ _ _ |>.mp hstop
    have hsum := (Option.some.injEq _ _ |>.mp hp2).symm
    subst hsum
    exact ⟨i1, hlen⟩

/-- Witness for C10: the bound holds at the concrete reachable state with one
ingested event. -/
theorem speaker_counter_bounds_witness :
    (onRecognized exStart 0 exEventA).1.speaker_counter
        ≤ (onRecognized exStart 0 exEventA).1.transcript_segments.length :=
  (speaker_counter_bounds (Reachable.ingest 0 exEventA
      (Reachable.start (Reachable.init "auto" "session_1" 0)))).1

end TeamsTranscription
